import Mathlib

set_option maxRecDepth 4000

/-!
Shallow embedding of the WebAssembly-text front end of the `war` repository.

The scanner (`src/text/lex.go`) is modelled at the byte level: the input is a
`List Nat` of byte values, the lexer state carries the `pos`/`start`/`width`
cursor fields of the Go `lexer` struct (the immutable `input` slice is passed
as an explicit parameter), and runes are decoded/encoded with UTF-8 exactly as
Go's `utf8.DecodeRune` / `WriteRune` do.  The channel-driven state-function
loop of the Go code is a small-step loop driven by a fuel parameter; every
internal scanning loop that provably consumes input uses the remaining input
length as its own (always sufficient) bound, while `lexBlockComment`, whose
loop can genuinely fail to terminate, consumes the top-level fuel, so that a
run that never finishes is represented by `none` at every fuel.

The parser (`Parser.Parse`, `newID`, `NewNode` from the unnamed Go file) is
modelled with the process-global `idCounter` threaded as explicit state.
Error-token diagnostic strings are abstracted to an empty payload; no theorem
below inspects diagnostic text.
-/

namespace Wat

/-- Cursor fields of the Go `lexer` struct (`input` is passed separately,
since the Go code never mutates it). -/
structure LexState where
  pos : Nat
  start : Nat
  width : Nat
deriving DecidableEq

/-- Go `utf8.DecodeRune` on the byte list: returns (rune, width); empty input
gives width 0, invalid encodings give `RuneError` (0xFFFD) with width 1. -/
def utf8DecodeRune (bs : List Nat) : Nat × Nat :=
  match bs with
  | [] => (0xFFFD, 0)
  | b0 :: rest =>
    if b0 < 0x80 then (b0, 1)
    else if b0 < 0xC2 then (0xFFFD, 1)
    else if b0 < 0xE0 then
      match rest with
      | b1 :: _ =>
        if 0x80 ≤ b1 ∧ b1 < 0xC0 then ((b0 - 0xC0) * 64 + (b1 - 0x80), 2)
        else (0xFFFD, 1)
      | [] => (0xFFFD, 1)
    else if b0 < 0xF0 then
      match rest with
      | b1 :: b2 :: _ =>
        if (if b0 = 0xE0 then 0xA0 ≤ b1 ∧ b1 < 0xC0
            else if b0 = 0xED then 0x80 ≤ b1 ∧ b1 < 0xA0
            else 0x80 ≤ b1 ∧ b1 < 0xC0) ∧ 0x80 ≤ b2 ∧ b2 < 0xC0
        then ((b0 - 0xE0) * 4096 + (b1 - 0x80) * 64 + (b2 - 0x80), 3)
        else (0xFFFD, 1)
      | _ => (0xFFFD, 1)
    else if b0 < 0xF5 then
      match rest with
      | b1 :: b2 :: b3 :: _ =>
        if (if b0 = 0xF0 then 0x90 ≤ b1 ∧ b1 < 0xC0
            else if b0 = 0xF4 then 0x80 ≤ b1 ∧ b1 < 0x90
            else 0x80 ≤ b1 ∧ b1 < 0xC0) ∧
           0x80 ≤ b2 ∧ b2 < 0xC0 ∧ 0x80 ≤ b3 ∧ b3 < 0xC0
        then ((b0 - 0xF0) * 262144 + (b1 - 0x80) * 4096 + (b2 - 0x80) * 64 + (b3 - 0x80), 4)
        else (0xFFFD, 1)
      | _ => (0xFFFD, 1)
    else (0xFFFD, 1)

/-- UTF-8 encoding of a Unicode scalar value (assumed in range). -/
def utf8EncodeScalar (v : Nat) : List Nat :=
  if v < 0x80 then [v]
  else if v < 0x800 then [0xC0 + v / 64, 0x80 + v % 64]
  else if v < 0x10000 then [0xE0 + v / 4096, 0x80 + v / 64 % 64, 0x80 + v % 64]
  else [0xF0 + v / 262144, 0x80 + v / 4096 % 64, 0x80 + v / 64 % 64, 0x80 + v % 64]

/-- Go's conversion `string(rune(v))` / `WriteRune`: surrogates and
out-of-range values become `RuneError` before UTF-8 encoding. -/
def encodeRune (v : Nat) : List Nat :=
  if (0xD800 ≤ v ∧ v ≤ 0xDFFF) ∨ 0x10FFFF < v then utf8EncodeScalar 0xFFFD
  else utf8EncodeScalar v

/-- Go `lexer.next`: at end of input return the `eof` rune 0 with width 0,
otherwise decode one rune and advance. -/
def next (input : List Nat) (l : LexState) : Nat × LexState :=
  if input.length ≤ l.pos then (0, { l with width := 0 })
  else
    let d := utf8DecodeRune (input.drop l.pos)
    (d.1, { l with pos := l.pos + d.2, width := d.2 })

/-- Go `lexer.backup`. -/
def backup (l : LexState) : LexState :=
  { l with pos := l.pos - l.width }

/-- Go `lexer.peek` (next + backup + width restore: state-neutral). -/
def peek (input : List Nat) (l : LexState) : Nat :=
  (next input l).1

/-- Go `lexer.accept`. -/
def accept (input : List Nat) (valid : List Nat) (l : LexState) : Bool × LexState :=
  let p := next input l
  if valid.contains p.1 then (true, p.2) else (false, backup p.2)

/-- Go `lexer.acceptRun`, with an explicit iteration bound (the caller passes
`input.length - pos + 1`, which always suffices because every accepted rune
advances the position and the `eof` rune 0 is in no `valid` set). -/
def acceptRunAux (input : List Nat) (valid : List Nat) :
    Nat → LexState → Nat → Nat × LexState
  | 0, l, c => (c, l)
  | k + 1, l, c =>
    let p := next input l
    if valid.contains p.1 then acceptRunAux input valid k p.2 (c + 1)
    else (c, backup p.2)

/-- Go `lexer.acceptRun`. -/
def acceptRun (input : List Nat) (valid : List Nat) (l : LexState) : Nat × LexState :=
  acceptRunAux input valid (input.length - l.pos + 1) l 0

/-- The byte span `input[i:j]` (Go slice of the input). -/
def extract (input : List Nat) (i j : Nat) : List Nat :=
  (input.drop i).take (j - i)

/-- Bytes of Go's `digit` constant `"0123456789"`. -/
def digitChars : List Nat := [48, 49, 50, 51, 52, 53, 54, 55, 56, 57]

/-- Bytes of the lower-case half of Go's `letter` constant. -/
def lowerChars : List Nat := (List.range 26).map (fun i => i + 97)

/-- Bytes of the upper-case half of Go's `letter` constant. -/
def upperChars : List Nat := (List.range 26).map (fun i => i + 65)

/-- Bytes of Go's `letter` constant. -/
def letterChars : List Nat := lowerChars ++ upperChars

/-- Bytes of Go's `symbol` constant, the string of the 23 characters
! # $ % & apostrophe * + - . / : < = > ? @ backslash ^ _ backquote bar tilde. -/
def symbolChars : List Nat :=
  [33, 35, 36, 37, 38, 39, 42, 43, 45, 46, 47, 58, 60, 61, 62, 63, 64, 92, 94, 95, 96, 124, 126]

/-- Bytes of Go's `sign` constant `"+-"`. -/
def signChars : List Nat := [43, 45]

/-- Bytes of Go's `keyword` constant: letter + digit + `"_.:="`. -/
def keywordChars : List Nat := letterChars ++ digitChars ++ [95, 46, 58, 61]

/-- Bytes of Go's `idChar` variable: digit + letter + symbol. -/
def idCharChars : List Nat := digitChars ++ letterChars ++ symbolChars

/-- Bytes of Go's `hexDigit` constant: digit + `"abcdefABCDEF"`. -/
def hexDigitChars : List Nat :=
  digitChars ++ [97, 98, 99, 100, 101, 102, 65, 66, 67, 68, 69, 70]

/-- Go `isSpace`: space, newline, tab, carriage return. -/
def isSpace (r : Nat) : Bool :=
  r == 32 || r == 10 || r == 9 || r == 13

/-- Go `isLowercaseLetter`. -/
def isLowercaseLetter (r : Nat) : Bool :=
  decide (97 ≤ r ∧ r ≤ 122)

/-- Go `isHexDigit`. -/
def isHexDigit (r : Nat) : Bool :=
  hexDigitChars.contains r

/-- The token kinds of `lex.go` that the verified claims mention.  The Go
enumeration has several hundred keyword kinds; all claims are insensitive to
which specific keyword kind a table hit produces, so only the kinds named by
the claims' inputs are distinguished here and every other keyword-class word
scans as the catch-all `tokenKeyword`, just as table misses do in the source. -/
inductive tokenKind where
  | tokenError
  | tokenEOF
  | tokenLParen
  | tokenRParen
  | tokenIdent
  | tokenNumber
  | tokenString
  | tokenKeyword
  | tokenModule
  | tokenFunc
  | tokenI32Add
  | tokenI32Const
deriving DecidableEq

open tokenKind

/-- Go `token`: a kind together with the payload bytes (`val`). -/
structure Token where
  kind : tokenKind
  val : List Nat
deriving DecidableEq

/-- Go `lexer.emit`: payload is the raw consumed span `input[start:pos]`. -/
def emitTok (input : List Nat) (k : tokenKind) (l : LexState) : Token × LexState :=
  (⟨k, extract input l.start l.pos⟩, { l with start := l.pos })

/-- Go `lexer.errorf` produces a `tokenError` token whose payload is a
formatted diagnostic; the diagnostic text is abstracted to `[]` here (no
claim inspects it). -/
def errToken : Token := ⟨tokenError, []⟩

/-- The keyword table `key` of `lex.go`, restricted to the entries the
verified inputs exercise ("module", "func", "i32.add", "i32.const"); any word
outside this table lexes as `tokenKeyword` exactly as in the source. -/
def keyLookup (w : List Nat) : Option tokenKind :=
  if w = [109, 111, 100, 117, 108, 101] then some tokenModule
  else if w = [102, 117, 110, 99] then some tokenFunc
  else if w = [105, 51, 50, 46, 97, 100, 100] then some tokenI32Add
  else if w = [105, 51, 50, 46, 99, 111, 110, 115, 116] then some tokenI32Const
  else none

/-- The space-skipping loop at the head of Go `lexDefault` (each skipped
space is consumed and `ignore`d); bounded by remaining input length. -/
def skipSpacesAux (input : List Nat) : Nat → LexState → LexState
  | 0, l => l
  | k + 1, l =>
    let p := next input l
    if isSpace p.1 then skipSpacesAux input k { p.2 with start := p.2.pos }
    else l

/-- Space skipping with its always-sufficient bound. -/
def skipSpaces (input : List Nat) (l : LexState) : LexState :=
  skipSpacesAux input (input.length - l.pos + 1) l

/-- Go `lexNumber`: optional sign, optional `0x`/`0X` switching the digit set
to hex, a run of digits and `_`, optional `.` fraction, optional
`e`/`E`/`p`/`P` exponent with optional sign.  Note the short-circuit of
`l.accept("0") && l.accept("xX")`: the `xX` probe only affects the state when
the `0` was accepted. -/
def lexNumber (input : List Nat) (l0 : LexState) : Token × LexState :=
  let l1 := (accept input signChars l0).2
  let a0 := accept input [48] l1
  let ax := accept input [120, 88] a0.2
  let isHex := a0.1 && ax.1
  let l2 := if a0.1 then ax.2 else a0.2
  let valid := (if isHex then hexDigitChars else digitChars) ++ [95]
  let l3 := (acceptRun input valid l2).2
  let adot := accept input [46] l3
  let l4 := if adot.1 then (acceptRun input valid adot.2).2 else adot.2
  let aexp := accept input [101, 69, 112, 80] l4
  let l5 :=
    if aexp.1 then (acceptRun input (digitChars ++ [95]) (accept input signChars aexp.2).2).2
    else aexp.2
  emitTok input tokenNumber l5

/-- Go `lexKeyword`: a run of keyword characters, then the table lookup;
misses emit the generic `tokenKeyword`. -/
def lexKeyword (input : List Nat) (l0 : LexState) : Token × LexState :=
  let l1 := (acceptRun input keywordChars l0).2
  emitTok input ((keyLookup (extract input l1.start l1.pos)).getD tokenKeyword) l1

/-- The skip-to-newline loop of Go `lexComment` (the newline is consumed);
bounded by remaining input length. -/
def commentLoopAux (input : List Nat) : Nat → LexState → LexState
  | 0, l => l
  | k + 1, l =>
    let p := next input l
    if p.1 = 0 ∨ p.1 = 10 then p.2
    else commentLoopAux input k p.2

/-- Go `lexComment`: requires the second `;`, then skips to newline or end of
input; a missing second `;` is a lexical error (`none`). -/
def lexComment (input : List Nat) (l0 : LexState) : Option LexState :=
  let a := accept input [59] l0
  if a.1 then some (commentLoopAux input (input.length - a.2.pos + 1) a.2)
  else none

/-- Go `lexIdentifier`: a run of `idChar`s that must be at least 2 long
(including the leading `$`); shorter runs are the "empty identifier" lexical
error (`none`). -/
def lexIdentifier (input : List Nat) (l0 : LexState) : Option (Token × LexState) :=
  if (acceptRun input idCharChars l0).1 < 2 then none
  else some (emitTok input tokenIdent (acceptRun input idCharChars l0).2)

/-- Value of a hex digit byte. -/
def hexVal (d : Nat) : Nat :=
  if 48 ≤ d ∧ d ≤ 57 then d - 48
  else if 97 ≤ d ∧ d ≤ 102 then d - 87
  else if 65 ≤ d ∧ d ≤ 70 then d - 55
  else 0

/-- Go `strconv.ParseUint(s, 16, 16)` value behaviour on hex-digit strings:
empty input is a syntax error returning 0; overflow past 16 bits returns the
max value 0xFFFF (the Go code ignores the error in both cases). -/
def parseUintHex16 (ds : List Nat) : Nat :=
  if ds = [] then 0
  else min (ds.foldl (fun a d => a * 16 + hexVal d) 0) 0xFFFF

/-- The digit-collecting loop of the `\u{...}` branch of Go `escapeSeq`:
at most 7 iterations (`for i := 0; i < 7; i++`), stopping early at `}`
(backed up); end of input or a non-hex digit is an error (`inr`). -/
def uLoop (input : List Nat) : Nat → LexState → List Nat → (List Nat × LexState) ⊕ LexState
  | 0, l, ds => Sum.inl (ds, l)
  | k + 1, l, ds =>
    let p := next input l
    if p.1 = 125 then Sum.inl (ds, backup p.2)
    else if p.1 = 0 then Sum.inr p.2
    else if ¬ isHexDigit p.1 then Sum.inr p.2
    else uLoop input k p.2 (ds ++ [p.1])

/-- Go `escapeSeq`: called after the backslash; returns the decoded bytes
(`some`) or a malformed-escape error (`none`).  Note that both the `\XX` and
the `\u{...}` branches produce `string(rune(v))`, i.e. the UTF-8 encoding of
the parsed value, and the `\u{...}` branch parses with `ParseUint(s, 16, 16)`. -/
def escapeSeq (input : List Nat) (l0 : LexState) : Option (List Nat) × LexState :=
  let p := next input l0
  if p.1 = 116 then (some [9], p.2)
  else if p.1 = 114 then (some [13], p.2)
  else if p.1 = 34 then (some [34], p.2)
  else if p.1 = 39 then (some [39], p.2)
  else if p.1 = 92 then (some [92], p.2)
  else if isHexDigit p.1 then
    let q := next input p.2
    if q.1 ≠ 0 ∧ isHexDigit q.1 then
      (some (encodeRune (hexVal p.1 * 16 + hexVal q.1)), q.2)
    else (none, q.2)
  else if p.1 = 117 then
    let ab := accept input [123] p.2
    if ab.1 then
      match uLoop input 7 ab.2 [] with
      | Sum.inl (ds, l1) =>
        let v := parseUintHex16 ds
        let ac := accept input [125] l1
        if ac.1 then (some (encodeRune v), ac.2) else (none, ac.2)
      | Sum.inr l1 => (none, l1)
    else (none, ab.2)
  else (none, p.2)

/-- The scan loop of Go `lexString`: accumulates decoded bytes until the
closing quote (`some payload`); a bad escape, a raw newline/return, or end of
input is a lexical error (`none`).  Bounded by remaining input length (every
iteration that continues consumes at least one byte). -/
def lexStringAux (input : List Nat) : Nat → LexState → List Nat → Option (List Nat) × LexState
  | 0, l, _ => (none, l)
  | k + 1, l, s =>
    let p := next input l
    if p.1 = 92 then
      let e := escapeSeq input p.2
      match e.1 with
      | some bs => lexStringAux input k e.2 (s ++ bs)
      | none => (none, e.2)
    else if p.1 = 34 then (some s, p.2)
    else if p.1 = 0 ∨ p.1 = 10 ∨ p.1 = 13 then (none, p.2)
    else lexStringAux input k p.2 (s ++ encodeRune p.1)

/-- Go `lexString` (entered with the opening quote already consumed). -/
def lexString (input : List Nat) (l0 : LexState) : Option (List Nat) × LexState :=
  lexStringAux input (input.length - l0.pos + 1) l0 []

/-- One iteration of the Go `lexBlockComment` loop: consume one rune; a `(`
followed by `;` (peeked) increments the level, a `;` followed by `)` (peeked)
decrements it; everything else - including the eof rune at end of input,
which does not advance the position - leaves the level unchanged. -/
def blockIter (input : List Nat) (level : Nat) (l : LexState) : Nat × LexState :=
  let p := next input l
  if p.1 = 40 then (if peek input p.2 = 59 then level + 1 else level, p.2)
  else if p.1 = 59 then (if peek input p.2 = 41 then level - 1 else level, p.2)
  else (level, p.2)

/-- The `for level > 0` loop of Go `lexBlockComment`, driven by the top-level
fuel: `none` means the loop has not terminated within the given fuel. -/
def blockLoop (input : List Nat) : Nat → Nat → LexState → Option LexState
  | _, 0, l => some l
  | 0, _ + 1, _ => none
  | fuel + 1, level + 1, l =>
    let p := blockIter input (level + 1) l
    blockLoop input fuel p.1 p.2

/-- Go `lexBlockComment`: entered with the `(` consumed; accepts the `;` and
runs the nesting loop at level 1.  It neither `ignore`s nor consumes the
closing `)` on exit. -/
def lexBlockComment (input : List Nat) (fuel : Nat) (l0 : LexState) : Option LexState :=
  blockLoop input fuel 1 (accept input [59] l0).2

/-- Go `lexDefault` driven as a small-step loop: one fuel unit per dispatch.
Returns `some tokens` when the scan reaches the EOF token or halts at a
lexical error token, `none` when the given fuel is exhausted first (in
particular when `lexBlockComment` loops forever). -/
def scanLoop (input : List Nat) : Nat → LexState → List Token → Option (List Token)
  | 0, _, _ => none
  | fuel + 1, l0, acc =>
    let ls := skipSpaces input l0
    let r := (next input ls).1
    let l := (next input ls).2
    if r = 0 then some (acc ++ [(emitTok input tokenEOF l).1])
    else if r = 59 then
      match lexComment input l with
      | some l1 => scanLoop input fuel l1 acc
      | none => some (acc ++ [errToken])
    else if r = 43 ∨ r = 45 ∨ (48 ≤ r ∧ r ≤ 57) then
      let p := lexNumber input (backup l)
      scanLoop input fuel p.2 (acc ++ [p.1])
    else if r = 36 then
      match lexIdentifier input (backup l) with
      | some p => scanLoop input fuel p.2 (acc ++ [p.1])
      | none => some (acc ++ [errToken])
    else if r = 34 then
      let q := lexString input l
      match q.1 with
      | some payload =>
        scanLoop input fuel { q.2 with start := q.2.pos } (acc ++ [⟨tokenString, payload⟩])
      | none => some (acc ++ [errToken])
    else if r = 40 then
      if peek input l = 59 then
        match lexBlockComment input fuel l with
        | some l1 => scanLoop input fuel l1 acc
        | none => none
      else
        let p := emitTok input tokenLParen l
        scanLoop input fuel p.2 (acc ++ [p.1])
    else if r = 41 then
      let p := emitTok input tokenRParen l
      scanLoop input fuel p.2 (acc ++ [p.1])
    else if isLowercaseLetter r then
      let p := lexKeyword input (backup l)
      scanLoop input fuel p.2 (acc ++ [p.1])
    else some (acc ++ [errToken])

/-- Scan an input from the initial lexer state (Go `NewLexer` + repeated
`nextToken`). -/
def scanTokens (fuel : Nat) (input : List Nat) : Option (List Token) :=
  scanLoop input fuel ⟨0, 0, 0⟩ []

/-- Go `Op` from the parser file. -/
inductive Op where
  | OpUnkown
  | OpStart
  | OpConst
  | OpLocalGet
  | OpLocalSet
  | OpCall
  | OpI32Add
deriving DecidableEq

/-- Go `Node` (ID, Op, Args, Meta); `Args` is a slice of possibly-nil node
pointers, hence `List (Option Node)`. -/
inductive Node where
  | mk (ID : Nat) (op : Op) (Args : List (Option Node)) (Meta : String)

/-- The `ID` field of a `Node`. -/
def Node.ID : Node → Nat
  | Node.mk i _ _ _ => i

/-- Go `newID`: increments the package-global `idCounter` and returns its new
value; the global is threaded explicitly, so the result is (id, new counter). -/
def newID (idCounter : Nat) : Nat × Nat :=
  (idCounter + 1, idCounter + 1)

/-- Go `NewNode`: allocates the next global ID for the node. -/
def NewNode (idCounter : Nat) (op : Op) (meta : String) (args : List (Option Node)) :
    Node × Nat :=
  (Node.mk (newID idCounter).1 op args meta, (newID idCounter).2)

/-- Whether an `Except` result is `ok`. -/
def exceptOk : Except String Node → Bool
  | Except.ok _ => true
  | Except.error _ => false

/-- Go `Parser.Parse`: creates the root `OpStart` node via `NewNode` (with the
variadic call `NewNode(OpStart, "", nil)` passing the single nil argument),
then drains the token stream, returning a "lexing error" if an error token
appears and success otherwise; no other analysis is performed.  The global
`idCounter` is threaded as explicit state; `none` models a scan that never
finishes. -/
def Parser.Parse (fuel idCounter : Nat) (input : List Nat) :
    Option (Except String Node × Nat) :=
  match scanTokens fuel input with
  | none => none
  | some ts =>
    if ts.any (fun t => t.kind == tokenError) then
      some (Except.error "lexing error", (NewNode idCounter Op.OpStart "" [none]).2)
    else
      some (Except.ok (NewNode idCounter Op.OpStart "" [none]).1,
            (NewNode idCounter Op.OpStart "" [none]).2)

/-- Input `(;` - a block comment opener that is never closed. -/
def inUnterminated : List Nat := [40, 59]

/-- Input `(;;)` - a well-formed, immediately closed block comment. -/
def inBlockOnly : List Nat := [40, 59, 59, 41]

/-- Input `(module)`. -/
def inModuleSrc : List Nat := [40, 109, 111, 100, 117, 108, 101, 41]

/-- Input `"a"` - a three-byte string literal. -/
def inStringA : List Nat := [34, 97, 34]

/-- Input `"\ff"` - a string literal holding the hex escape for byte 0xFF. -/
def inEscFF : List Nat := [34, 92, 102, 102, 34]

/-- Input `"\u{10000}"` - a unicode escape above 0xFFFF. -/
def inEscU : List Nat := [34, 92, 117, 123, 49, 48, 48, 48, 48, 125, 34]

/-- Input `(func $f) (func $f)` - the same name bound twice. -/
def inDupFunc : List Nat :=
  [40, 102, 117, 110, 99, 32, 36, 102, 41, 32, 40, 102, 117, 110, 99, 32, 36, 102, 41]

/-- Input `(i32.add (i32.const 1) (i32.const 2))` - a folded instruction. -/
def inFolded : List Nat :=
  [40, 105, 51, 50, 46, 97, 100, 100, 32,
   40, 105, 51, 50, 46, 99, 111, 110, 115, 116, 32, 49, 41, 32,
   40, 105, 51, 50, 46, 99, 111, 110, 115, 116, 32, 50, 41, 41]

/-- Input `"\n"` - a string literal holding the (unsupported) escape `\n`. -/
def inEscN : List Nat := [34, 92, 110, 34]

/-- A token is a string token, an error token, or carries a contiguous byte
span of the input as its payload. -/
def SpanOK (input : List Nat) (t : Token) : Prop :=
  t.kind = tokenString ∨ t.kind = tokenError ∨ ∃ i j, t.val = extract input i j

theorem spanOK_append {input : List Nat} {acc : List Token} {tok : Token}
    (h : ∀ t ∈ acc, SpanOK input t) (h2 : SpanOK input tok) :
    ∀ t ∈ acc ++ [tok], SpanOK input t := by
  intro t ht
  rcases List.mem_append.1 ht with h3 | h3
  · exact h t h3
  · rcases List.mem_singleton.1 h3 with rfl
    exact h2

theorem emitTok_spanOK (input : List Nat) (k : tokenKind) (l : LexState) :
    SpanOK input (emitTok input k l).1 :=
  Or.inr (Or.inr ⟨l.start, l.pos, rfl⟩)

theorem lexNumber_spanOK (input : List Nat) (l : LexState) :
    SpanOK input (lexNumber input l).1 :=
  Or.inr (Or.inr ⟨_, _, rfl⟩)

theorem lexKeyword_spanOK (input : List Nat) (l : LexState) :
    SpanOK input (lexKeyword input l).1 :=
  Or.inr (Or.inr ⟨_, _, rfl⟩)

theorem errToken_spanOK (input : List Nat) : SpanOK input errToken :=
  Or.inr (Or.inl rfl)

theorem lexIdentifier_spanOK (input : List Nat) (l : LexState) (p : Token × LexState)
    (h : lexIdentifier input l = some p) : SpanOK input p.1 := by
  unfold lexIdentifier at h
  split at h
  · exact Option.noConfusion h
  · cases Option.some.inj h
    exact emitTok_spanOK input tokenIdent _

/-- Every token a completed scan produces is a string token, an error token,
or carries a contiguous byte span of the input as its payload. -/
theorem scanLoop_spanOK (input : List Nat) :
    ∀ fuel l acc ts, scanLoop input fuel l acc = some ts →
      (∀ t ∈ acc, SpanOK input t) → ∀ t ∈ ts, SpanOK input t := by
  intro fuel
  induction fuel with
  | zero =>
    intro l acc ts h hacc
    exact Option.noConfusion h
  | succ fuel ih =>
    intro l acc ts h hacc
    simp only [scanLoop] at h
    repeat' split at h
    all_goals
      first
      | exact Option.noConfusion h
      | (cases Option.some.inj h;
         exact spanOK_append hacc (emitTok_spanOK input _ _))
      | (cases Option.some.inj h;
         exact spanOK_append hacc (errToken_spanOK input))
      | exact ih _ _ _ h hacc
      | exact ih _ _ _ h (spanOK_append hacc (emitTok_spanOK input _ _))
      | exact ih _ _ _ h (spanOK_append hacc (lexNumber_spanOK input _))
      | exact ih _ _ _ h (spanOK_append hacc (lexKeyword_spanOK input _))
      | exact ih _ _ _ h (spanOK_append hacc (Or.inl rfl))
      | exact ih _ _ _ h (spanOK_append hacc (lexIdentifier_spanOK input _ _ (by assumption)))

/-- Claim C1: the claim says scanning an unterminated block comment `(;`
produces exactly one lexical-error token and stops; the code instead loops
forever: `lexBlockComment` never tests for end of input, `next` returns the
zero rune without advancing, the nesting level stays 1, and the scan never
finishes at any fuel. -/
theorem unterminatedBlockComment_hangs :
    ∀ fuel, scanTokens fuel inUnterminated = none := by
  have hfix : ∀ f, blockLoop inUnterminated f 1 (LexState.mk 2 0 0) = none := by
    intro f
    induction f with
    | zero => rfl
    | succ f ih => exact ih
  have h1 : ∀ f, blockLoop inUnterminated f 1 (LexState.mk 2 0 1) = none := by
    intro f
    match f with
    | 0 => rfl
    | f + 1 => exact hfix f
  intro fuel
  match fuel with
  | 0 => rfl
  | fuel + 1 =>
    have step : scanTokens (fuel + 1) inUnterminated =
        (match blockLoop inUnterminated fuel 1 (LexState.mk 2 0 1) with
         | some l1 => scanLoop inUnterminated fuel l1 []
         | none => none) := rfl
    rw [step, h1 fuel]

/-- Claim C2: the claim says scanning the well-formed block comment `(;;)`
emits no token other than end-of-input; the code emits a `tokenRParen`
(whose payload even spans the whole comment) before the EOF token, because
`lexBlockComment` decrements the nesting level on `;` with a peeked `)` but
never consumes that `)`. -/
theorem blockComment_leaks_rparen :
    scanTokens 9 inBlockOnly =
      some [Token.mk tokenRParen [40, 59, 59, 41], Token.mk tokenEOF []] := rfl

/-- Claim C3 (counterexample): the ID counter is process-global, so running
the parser twice on the same input does not produce identical results: the
first run's root node has ID 1, the second run (resuming the shared counter
it left at 1) has ID 2. -/
theorem parse_global_counter_cex :
    Parser.Parse 32 0 inModuleSrc =
      some (Except.ok (Node.mk 1 Op.OpStart [none] ""), 1) ∧
    Parser.Parse 32 1 inModuleSrc =
      some (Except.ok (Node.mk 2 Op.OpStart [none] ""), 2) ∧
    (Node.mk 1 Op.OpStart [none] "").ID ≠ (Node.mk 2 Op.OpStart [none] "").ID :=
  ⟨rfl, rfl, by decide⟩

/-- Claim C3 (amended): the identifier counter is shared mutable state across
parses, threaded here explicitly: every completed `Parser.Parse` advances the
counter by one, its root node's ID is counter + 1 (so two runs started at
different counter values produce roots with different IDs), and only the
success/failure outcome is independent of the counter. -/
theorem parse_counter_shared (fuel c₁ c₂ : Nat) (input : List Nat)
    (o₁ o₂ : Except String Node × Nat)
    (h₁ : Parser.Parse fuel c₁ input = some o₁)
    (h₂ : Parser.Parse fuel c₂ input = some o₂) :
    o₁.2 = c₁ + 1 ∧ o₂.2 = c₂ + 1 ∧ exceptOk o₁.1 = exceptOk o₂.1 ∧
      ∀ n₁ n₂, o₁.1 = Except.ok n₁ → o₂.1 = Except.ok n₂ →
        n₁.ID = c₁ + 1 ∧ n₂.ID = c₂ + 1 := by
  unfold Parser.Parse at h₁ h₂
  cases hs : scanTokens fuel input with
  | none =>
    rw [hs] at h₁
    exact Option.noConfusion h₁
  | some ts =>
    simp only [hs] at h₁ h₂
    by_cases hb : ts.any (fun t => t.kind == tokenError) = true
    · rw [if_pos hb] at h₁ h₂
      cases Option.some.inj h₁
      cases Option.some.inj h₂
      refine ⟨rfl, rfl, rfl, ?_⟩
      intro n₁ n₂ e₁ e₂
      exact Except.noConfusion e₁
    · rw [if_neg hb] at h₁ h₂
      cases Option.some.inj h₁
      cases Option.some.inj h₂
      refine ⟨rfl, rfl, rfl, ?_⟩
      intro n₁ n₂ e₁ e₂
      cases Except.ok.inj e₁
      cases Except.ok.inj e₂
      exact ⟨rfl, rfl⟩

/-- Witness for `parse_counter_shared` at input `(module)` with counters 0
and 1. -/
theorem parse_counter_shared_witness :
    ((Except.ok (Node.mk 1 Op.OpStart [none] ""), 1) : Except String Node × Nat).2 = 0 + 1 ∧
    ((Except.ok (Node.mk 2 Op.OpStart [none] ""), 2) : Except String Node × Nat).2 = 1 + 1 ∧
    exceptOk ((Except.ok (Node.mk 1 Op.OpStart [none] ""), 1) : Except String Node × Nat).1 =
      exceptOk ((Except.ok (Node.mk 2 Op.OpStart [none] ""), 2) : Except String Node × Nat).1 ∧
    (∀ n₁ n₂,
      ((Except.ok (Node.mk 1 Op.OpStart [none] ""), 1) : Except String Node × Nat).1 =
        Except.ok n₁ →
      ((Except.ok (Node.mk 2 Op.OpStart [none] ""), 2) : Except String Node × Nat).1 =
        Except.ok n₂ →
      n₁.ID = 0 + 1 ∧ n₂.ID = 1 + 1) :=
  parse_counter_shared 32 0 1 inModuleSrc _ _ rfl rfl

/-- Claim C4 (counterexample): scanning the three-byte string literal `"a"`
yields a string token whose payload is the decoded content `[97]`, not the
raw byte span `[34, 97, 34]` of the atom, so re-serializing the token payload
does not reproduce the literal span. -/
theorem string_token_payload_cex :
    scanTokens 9 inStringA =
      some [Token.mk tokenString [97], Token.mk tokenEOF []] ∧
    [97] ≠ extract inStringA 0 3 :=
  ⟨rfl, by decide⟩

/-- Claim C4 (amended): for every token a completed scan emits other than
string tokens (whose payload is the decoded content, not the raw span) and
error tokens (whose payload is a diagnostic), the payload is exactly a
contiguous byte span `input[i:j]` of the source. -/
theorem scan_atom_spans (input : List Nat) (fuel : Nat) (ts : List Token) (t : Token)
    (hscan : scanTokens fuel input = some ts) (ht : t ∈ ts)
    (hstr : t.kind ≠ tokenString) (herr : t.kind ≠ tokenError) :
    ∃ i j, t.val = extract input i j := by
  have h := scanLoop_spanOK input fuel ⟨0, 0, 0⟩ [] ts hscan
    (by intro t ht; exact absurd ht (List.not_mem_nil t)) t ht
  rcases h with h | h | h
  · exact absurd h hstr
  · exact absurd h herr
  · exact h

/-- Witness for `scan_atom_spans` at the one-byte input `+`. -/
theorem scan_atom_spans_witness :
    ∃ i j, (Token.mk tokenNumber [43]).val = extract [43] i j :=
  scan_atom_spans [43] 9 [Token.mk tokenNumber [43], Token.mk tokenEOF []]
    (Token.mk tokenNumber [43]) rfl (by decide) (by decide) (by decide)

/-- Claim C5: the claim (and the WebAssembly text format the source cites)
says `\XX` decodes one raw byte for every XX in 0x00-0xFF; the code instead
appends `string(rune(v))`, the UTF-8 encoding of code point XX, so `"\ff"`
scans to the two bytes [195, 191] rather than the single raw byte [255]. -/
theorem escape_hex_utf8_bug :
    scanTokens 9 inEscFF =
      some [Token.mk tokenString [195, 191], Token.mk tokenEOF []] ∧
    [195, 191] ≠ [255] :=
  ⟨rfl, by decide⟩

/-- Claim C6: the claim says `\u{H..H}` decodes any code point, including
above 0xFFFF, to its UTF-8 encoding (and more than six digits is an error);
the code parses the digits with `ParseUint(s, 16, 16)`, whose 16-bit cap
turns `"\u{10000}"` into U+FFFF (bytes [239, 191, 191]) instead of the
UTF-8 encoding of U+10000. -/
theorem escape_unicode_truncated_bug :
    scanTokens 9 inEscU =
      some [Token.mk tokenString [239, 191, 191], Token.mk tokenEOF []] ∧
    [239, 191, 191] ≠ utf8EncodeScalar 0x10000 :=
  ⟨rfl, by decide⟩

/-- Claim C7: the claim says `(func $f) (func $f)` yields a resolution error;
`Parser.Parse` performs no name binding or duplicate detection at all - it
only drains the token stream - so the input parses successfully. -/
theorem parse_duplicate_func_ok :
    Parser.Parse 32 0 inDupFunc =
      some (Except.ok (Node.mk 1 Op.OpStart [none] ""), 1) := rfl

/-- Claim C8: the claim says parsing the folded `(i32.add (i32.const 1)
(i32.const 2))` yields the flat sequence i32.const 1; i32.const 2; i32.add;
`Parser.Parse` builds no instruction sequence whatsoever - the entire parse
result is the bare `OpStart` root node. -/
theorem parse_folded_no_flatten :
    Parser.Parse 64 0 inFolded =
      some (Except.ok (Node.mk 1 Op.OpStart [none] ""), 1) := rfl

/-- Claim C9: a lone sign character (`+` or `-`, bytes 43 and 45) is emitted
as a number token whose payload is just the sign - `lexNumber` accepts a sign
followed by zero digits - not a lexical error. -/
theorem lone_sign_number_token :
    scanTokens 9 [43] = some [Token.mk tokenNumber [43], Token.mk tokenEOF []] ∧
    scanTokens 9 [45] = some [Token.mk tokenNumber [45], Token.mk tokenEOF []] :=
  ⟨rfl, rfl⟩

/-- Claim C10: the escape `\n` is not among the escapes `escapeSeq` accepts
(`n` is neither a named escape nor a hex digit), so scanning the string
literal `"\n"` halts with exactly one lexical-error token. -/
theorem escape_n_lexical_error :
    scanTokens 9 inEscN = some [Token.mk tokenError []] := rfl

end Wat
